import Mathlib

/-!
Verification development for the infinite-bookshelf generation workflow
(src/main.py).  The data model and the operations the properties speak
about are embedded shallowly: the recursive content fill, the workflow
control flow and the exporters come from src/main.py; the Book state
object and the Markdown/PDF helper functions live in the repository
outside src/ and are modelled from the specification text.
-/

namespace InfiniteBookshelf

/-- JSON values as produced by parsing the structure response
(json.loads in src/main.py line 117).  Only the shapes the workflow
inspects matter: strings, objects (ordered field lists), and the
remaining shapes (null, numbers, arrays) that the fill skips. -/
inductive JVal where
| str (s : String)
| obj (fields : List (String × JVal))
| null
| num (n : Int)
| arr (elems : List JVal)

/-- Modelled from the spec: the Book state object of infinite_bookshelf.ui
(not under src/) holds the title and an ordered mapping from section
title to generated content; the constructor records the title and the
content mapping starts empty, populated leaf-by-leaf during generation. -/
structure Book where
  book_title : String
  contents : List (String × String)
deriving Repr, DecidableEq

/-- Ordered-mapping upsert with Python dict assignment semantics: replace
in place when the key is present, append otherwise. -/
def updateAssoc : List (String × String) → String → String → List (String × String)
| [], k, v => [(k, v)]
| (k0, v0) :: rest, k, v =>
    if k0 = k then (k, v) :: rest else (k0, v0) :: updateAssoc rest k v

/-- Ordered-mapping lookup (first occurrence of the key). -/
def lookupAssoc : List (String × String) → String → Option String
| [], _ => none
| (k0, v0) :: rest, k => if k0 = k then some v0 else lookupAssoc rest k

/-- Modelled from the spec: Book.update_content replaces the content
stored for a given title (in-place content replacement on the ordered
mapping). -/
def Book.update_content (b : Book) (title content : String) : Book :=
  Book.mk b.book_title (updateAssoc b.contents title content)

/-- Concatenation of a list of strings. -/
def concatAll : List String → String
| [] => ""
| s :: rest => s ++ concatAll rest

/-- Markdown block of one section: the section title as sub-heading
followed by its content as body. -/
def sectionMarkdown (p : String × String) : String :=
  "## " ++ p.1 ++ "\n\n" ++ p.2 ++ "\n\n"

/-- Modelled from the spec: Book.get_markdown_content flattens the Book
to a single concatenated Markdown string, the title as heading, each
section title as sub-heading, content as body, in insertion order. -/
def Book.get_markdown_content (b : Book) : String :=
  "# " ++ b.book_title ++ "\n\n" ++ concatAll (b.contents.map sectionMarkdown)

/-- The prompt sent to generate_section for one leaf (src/main.py line
125): the title, a colon and the leaf description. -/
def leafPrompt (title content : String) : String :=
  title ++ ": " ++ content

/-- Result of one run of the recursive content fill: the Book after the
run, the prompts of the generate_section calls that were made, in order,
and the error of the failing call when one raised. -/
structure FillResult where
  book : Book
  calls : List String
  err : Option String
deriving Repr, DecidableEq

mutual

/-- Embedding of one iteration of the loop body of generate_book_content
(src/main.py lines 122-132) on one outline entry: a string value
triggers one generate_section call and one update_content write, a
mapping recurses, anything else is skipped.  The generator gen stands
for generate_section with the model and the additional instructions
fixed; an error value models a raised API exception, which stops the
run at once. -/
def fillEntryE (gen : String → Except String String) (book : Book)
    (title : String) : JVal → FillResult
| JVal.str content =>
    match gen (leafPrompt title content) with
    | Except.ok s => FillResult.mk (book.update_content title s) [leafPrompt title content] none
    | Except.error e => FillResult.mk book [leafPrompt title content] (some e)
| JVal.obj fields => fillSectionsE gen book fields
| _ => FillResult.mk book [] none

/-- Embedding of generate_book_content (src/main.py lines 121-134): the
for-loop over sections.items() in insertion order, stopping at the
first call that raises. -/
def fillSectionsE (gen : String → Except String String) (book : Book) :
    List (String × JVal) → FillResult
| [] => FillResult.mk book [] none
| (title, v) :: rest =>
    let r := fillEntryE gen book title v
    match r.err with
    | some e => FillResult.mk r.book r.calls (some e)
    | none =>
        let r2 := fillSectionsE gen r.book rest
        FillResult.mk r2.book (r.calls ++ r2.calls) r2.err

end

/-- generate_book_content under a generator that never raises: the Book
after a successful full run. -/
def generate_book_content (gen : String → String) (book : Book)
    (sections : List (String × JVal)) : Book :=
  (fillSectionsE (fun p => Except.ok (gen p)) book sections).book

mutual

/-- The leaves of one outline entry: the (title, description) pairs of
its string-valued entries, in depth-first insertion order. -/
def leavesEntry (title : String) : JVal → List (String × String)
| JVal.str c => [(title, c)]
| JVal.obj fields => leavesSections fields
| _ => []

/-- The leaves of an outline, in depth-first insertion order. -/
def leavesSections : List (String × JVal) → List (String × String)
| [] => []
| (title, v) :: rest => leavesEntry title v ++ leavesSections rest

end

/-- Scan the leaves in order: the leaves before the first one whose
generation call errors, and that failing leaf with its error when one
exists. -/
def okLeaves (gen : String → Except String String) :
    List (String × String) → List (String × String) × Option (String × String × String)
| [] => ([], none)
| (t, c) :: rest =>
    match gen (leafPrompt t c) with
    | Except.error e => ([], some (t, c, e))
    | Except.ok _ =>
        let r := okLeaves gen rest
        ((t, c) :: r.1, r.2)

/-- Apply the generated content of each listed leaf to the Book, in
order (the successful writes of a run). -/
def applyGen (gen : String → Except String String) (book : Book)
    (l : List (String × String)) : Book :=
  l.foldl (fun b p =>
    match gen (leafPrompt p.1 p.2) with
    | Except.ok s => b.update_content p.1 s
    | Except.error _ => b) book

/-- The calls a run makes, given the scan of its leaves: one call per
successful leaf plus the single failing call when one exists. -/
def callsOf (split : List (String × String) × Option (String × String × String)) :
    List String :=
  split.1.map (fun p => leafPrompt p.1 p.2) ++
    (match split.2 with
     | some q => [leafPrompt q.1 q.2.1]
     | none => [])

/-- The propagated error of a run, given the scan of its leaves. -/
def errOf (split : List (String × String) × Option (String × String × String)) :
    Option String :=
  split.2.map (fun q => q.2.2)

/-- The intended summary of a run over a given leaf list. -/
def fillSpec (gen : String → Except String String) (book : Book)
    (l : List (String × String)) : FillResult :=
  FillResult.mk (applyGen gen book (okLeaves gen l).1) (callsOf (okLeaves gen l))
    (errOf (okLeaves gen l))

/-- One successful write of the fill under a total generator. -/
def updBook (gen : String → String) (b : Book) (p : String × String) : Book :=
  b.update_content p.1 (gen (leafPrompt p.1 p.2))

/-- Whether a JSON value is a string (the isinstance(content, str) test of
src/main.py line 123). -/
def JVal.isString : JVal → Bool
| JVal.str _ => true
| _ => false

/-- Whether a JSON value is a mapping (the isinstance(content, dict) test
of src/main.py line 131). -/
def JVal.isMapping : JVal → Bool
| JVal.obj _ => true
| _ => false

/-- Embedding of the generation workflow triggered by the Generate Book
button (src/main.py lines 99-134): title generation, structure
generation, the parse of the structure response (json.loads, modelled by
an abstract parser parameter since the JSON library is external), Book
construction, and the recursive content fill.  Each fallible step is
modelled by its outcome; an error value models a raised exception, which
aborts the workflow at that point, so the error branches carry no Book.
A parsed value that is valid JSON but not an object also aborts, at the
items() call, before any content write. -/
def advanced_book_generation
    (genTitle : Except String String)
    (genStructure : Except String String)
    (parse : String → Except String JVal)
    (gen : String → Except String String) : Except String FillResult :=
  match genTitle with
  | Except.error e => Except.error e
  | Except.ok book_title =>
    match genStructure with
    | Except.error e => Except.error e
    | Except.ok book_structure =>
      match parse book_structure with
      | Except.error e => Except.error e
      | Except.ok (JVal.obj fields) =>
          Except.ok (fillSectionsE gen (Book.mk book_title []) fields)
      | Except.ok _ => Except.error "structure response is not a JSON object"

/-- One chapter document of the e-book package (epub.EpubHtml). -/
structure EpubHtml where
  title : String
  file_name : String
  content : String
deriving Repr, DecidableEq

/-- The e-book package as assembled by create_epub_file: title, language,
the chapter documents added to the package, the table of contents, the
presence of the NCX and Nav navigation items, and the stylesheet items. -/
structure EpubBook where
  title : String
  language : String
  chapters : List EpubHtml
  toc : List EpubHtml
  hasNcx : Bool
  hasNav : Bool
  styles : List (String × String)
deriving Repr, DecidableEq

/-- The fixed stylesheet text of src/main.py line 45. -/
def epubStyle : String := "BODY \x7bcolor: white;\x7d"

/-- Embedding of create_epub_file (src/main.py lines 25-53): one chapter
per entry of the content mapping, in order, each holding its title as a
heading and its content as a paragraph; the table of contents is the
tuple of those chapters; NCX and Nav items and one fixed stylesheet are
added. -/
def create_epub_file (book : Book) : EpubBook :=
  let chapters := book.contents.map (fun p =>
    EpubHtml.mk p.1 (p.1 ++ ".xhtml") ("<h1>" ++ p.1 ++ "</h1><p>" ++ p.2 ++ "</p>"))
  EpubBook.mk book.book_title "en" chapters chapters true true
    [("style/nav.css", epubStyle)]

/-- One block of the word-processor document. -/
inductive DocxBlock where
| heading (level : Nat) (text : String)
| paragraph (text : String)
deriving Repr, DecidableEq

/-- Embedding of create_docx_file (src/main.py lines 55-67): the book
title as a level-1 heading, then a level-2 heading and a paragraph per
entry of the content mapping, in order. -/
def create_docx_file (book : Book) : List DocxBlock :=
  DocxBlock.heading 1 book.book_title ::
    (book.contents.map (fun p =>
      [DocxBlock.heading 2 p.1, DocxBlock.paragraph p.2])).flatten

/-- The headings of a word-processor document, with levels, in order. -/
def docxHeadings (blocks : List DocxBlock) : List (Nat × String) :=
  blocks.foldr (fun blk acc =>
    match blk with
    | DocxBlock.heading lvl t => (lvl, t) :: acc
    | DocxBlock.paragraph _ => acc) []

/-- Modelled from the spec: create_markdown_file (infinite_bookshelf.tools,
not under src/) is a pass-through of the flattened Markdown text to the
downloaded buffer. -/
def create_markdown_file (md : String) : String := md

/-- A PDF output, identified by its structural input.  Modelled from the
spec: create_pdf_file (infinite_bookshelf.tools, not under src/) performs
library-driven layout from the flattened Markdown text, so its
structural content is determined by that text. -/
structure PdfFile where
  source : String
deriving Repr, DecidableEq

/-- Modelled from the spec: create_pdf_file lays out the Markdown text. -/
def create_pdf_file (md : String) : PdfFile := PdfFile.mk md

/-- One model record returned by the models.list API call. -/
structure GroqModel where
  id : String
deriving Repr, DecidableEq

/-- Embedding of get_available_groq_models (src/main.py lines 69-77): the
models.list API call is modelled by its outcome; a raised exception is
caught and the fixed fallback list returned, otherwise the ids of the
reported models are returned. -/
def get_available_groq_models (api : Except String (List GroqModel)) : List String :=
  match api with
  | Except.ok models => models.map GroqModel.id
  | Except.error _ => ["llama3-8b-8192", "llama3-70b-8192", "gemma-7b-it"]

/-- A generator that returns the same non-empty text for every prompt. -/
def genX : String → String := fun _ => "X"

/-- An outline with two leaves, at different nesting levels, sharing the
title A. -/
def dupOutline : List (String × JVal) :=
  [("A", JVal.str "a"), ("B", JVal.obj [("A", JVal.str "b")])]

/-- An outline with two leaves at different nesting levels whose titles
are distinct. -/
def distinctOutline : List (String × JVal) :=
  [("A", JVal.str "a"), ("B", JVal.obj [("C", JVal.str "c")])]

/-!  Helper lemmas about the ordered mapping. -/

theorem updateAssoc_append_of_not_mem (l : List (String × String)) (k v : String)
    (h : ∀ p ∈ l, p.1 ≠ k) : updateAssoc l k v = l ++ [(k, v)] := by
  induction l with
  | nil => rfl
  | cons hd tl ih =>
    obtain ⟨k0, v0⟩ := hd
    have hhd : k0 ≠ k := h (k0, v0) (List.mem_cons_self _ _)
    simp only [updateAssoc, if_neg hhd, List.cons_append, List.cons.injEq, true_and]
    exact ih (fun p hp => h p (List.mem_cons_of_mem _ hp))

theorem lookupAssoc_updateAssoc_self (l : List (String × String)) (k v : String) :
    lookupAssoc (updateAssoc l k v) k = some v := by
  induction l with
  | nil => simp [updateAssoc, lookupAssoc]
  | cons hd tl ih =>
    obtain ⟨k0, v0⟩ := hd
    by_cases hk : k0 = k
    · simp [updateAssoc, lookupAssoc, hk]
    · simp [updateAssoc, lookupAssoc, hk, ih]

theorem lookupAssoc_updateAssoc_other (l : List (String × String)) (k v k2 : String)
    (h : k2 ≠ k) : lookupAssoc (updateAssoc l k v) k2 = lookupAssoc l k2 := by
  have hne : k ≠ k2 := fun he => h he.symm
  induction l with
  | nil => simp [updateAssoc, lookupAssoc, hne]
  | cons hd tl ih =>
    obtain ⟨k0, v0⟩ := hd
    by_cases hk : k0 = k
    · subst hk
      simp [updateAssoc, lookupAssoc, hne]
    · by_cases hk2 : k0 = k2
      · simp [updateAssoc, lookupAssoc, hk, hk2, h]
      · simp [updateAssoc, lookupAssoc, hk, hk2, ih]

theorem updateAssoc_keys (l : List (String × String)) (k v : String)
    (h : k ∈ l.map Prod.fst) :
    (updateAssoc l k v).map Prod.fst = l.map Prod.fst := by
  induction l with
  | nil => simp at h
  | cons hd tl ih =>
    obtain ⟨k0, v0⟩ := hd
    by_cases hk : k0 = k
    · simp [updateAssoc, hk]
    · rw [List.map_cons] at h
      rcases List.mem_cons.mp h with h1 | h1
      · exact absurd h1.symm hk
      · simp [updateAssoc, hk, ih h1]

/-!  Helper lemmas about the scan of the leaves and the writes. -/

theorem applyGen_append (gen : String → Except String String) (b : Book)
    (l1 l2 : List (String × String)) :
    applyGen gen b (l1 ++ l2) = applyGen gen (applyGen gen b l1) l2 := by
  simp [applyGen, List.foldl_append]

theorem okLeaves_append_err (gen : String → Except String String)
    (l1 l2 : List (String × String)) (q : String × String × String)
    (h : (okLeaves gen l1).2 = some q) :
    okLeaves gen (l1 ++ l2) = okLeaves gen l1 := by
  induction l1 with
  | nil => simp [okLeaves] at h
  | cons hd tl ih =>
    obtain ⟨t, c⟩ := hd
    cases hg : gen (leafPrompt t c) with
    | error e => simp [okLeaves, hg]
    | ok s =>
      have h2 : (okLeaves gen tl).2 = some q := by
        simpa [okLeaves, hg] using h
      simp [okLeaves, hg, ih h2]

theorem okLeaves_append_ok (gen : String → Except String String)
    (l1 l2 : List (String × String)) (h : (okLeaves gen l1).2 = none) :
    okLeaves gen (l1 ++ l2)
      = ((okLeaves gen l1).1 ++ (okLeaves gen l2).1, (okLeaves gen l2).2) := by
  induction l1 with
  | nil => simp [okLeaves]
  | cons hd tl ih =>
    obtain ⟨t, c⟩ := hd
    cases hg : gen (leafPrompt t c) with
    | error e => simp [okLeaves, hg] at h
    | ok s =>
      have h2 : (okLeaves gen tl).2 = none := by
        simpa [okLeaves, hg] using h
      simp [okLeaves, hg, ih h2]

theorem okLeaves_ok (gen : String → String) (l : List (String × String)) :
    okLeaves (fun p => Except.ok (gen p)) l = (l, none) := by
  induction l with
  | nil => rfl
  | cons hd tl ih =>
    obtain ⟨t, c⟩ := hd
    simp [okLeaves, ih]

mutual

theorem fillEntryE_eq (gen : String → Except String String) (book : Book)
    (title : String) (v : JVal) :
    fillEntryE gen book title v = fillSpec gen book (leavesEntry title v) := by
  cases v with
  | str c =>
    cases hg : gen (leafPrompt title c) with
    | ok s =>
      simp [fillEntryE, leavesEntry, fillSpec, okLeaves, hg, applyGen, callsOf, errOf]
    | error e =>
      simp [fillEntryE, leavesEntry, fillSpec, okLeaves, hg, applyGen, callsOf, errOf]
  | obj fields =>
    have h := fillSectionsE_eq gen book fields
    simpa [fillEntryE, leavesEntry] using h
  | null =>
    simp [fillEntryE, leavesEntry, fillSpec, okLeaves, applyGen, callsOf, errOf]
  | num n =>
    simp [fillEntryE, leavesEntry, fillSpec, okLeaves, applyGen, callsOf, errOf]
  | arr elems =>
    simp [fillEntryE, leavesEntry, fillSpec, okLeaves, applyGen, callsOf, errOf]

theorem fillSectionsE_eq (gen : String → Except String String) (book : Book)
    (l : List (String × JVal)) :
    fillSectionsE gen book l = fillSpec gen book (leavesSections l) := by
  cases l with
  | nil =>
    simp [fillSectionsE, leavesSections, fillSpec, okLeaves, applyGen, callsOf, errOf]
  | cons hd rest =>
    obtain ⟨t, v⟩ := hd
    have he := fillEntryE_eq gen book t v
    have hr := fillSectionsE_eq gen
      (applyGen gen book (okLeaves gen (leavesEntry t v)).1) rest
    cases h1 : (okLeaves gen (leavesEntry t v)).2 with
    | some q =>
      have hap := okLeaves_append_err gen (leavesEntry t v) (leavesSections rest) q h1
      simp [fillSectionsE, leavesSections, he, fillSpec, errOf, h1, hap]
    | none =>
      have hap := okLeaves_append_ok gen (leavesEntry t v) (leavesSections rest) h1
      simp [fillSectionsE, leavesSections, he, fillSpec, errOf, h1, hap, hr,
        applyGen_append, callsOf, List.map_append, List.append_assoc]

end

theorem applyGen_ok (gen : String → String) (b : Book) (l : List (String × String)) :
    applyGen (fun p => Except.ok (gen p)) b l = l.foldl (updBook gen) b := rfl

theorem generate_book_content_eq (gen : String → String) (book : Book)
    (sections : List (String × JVal)) :
    generate_book_content gen book sections
      = (leavesSections sections).foldl (updBook gen) book := by
  rw [generate_book_content, fillSectionsE_eq, fillSpec, okLeaves_ok, applyGen_ok]

theorem updBook_title (gen : String → String) (b : Book) (p : String × String) :
    (updBook gen b p).book_title = b.book_title := rfl

theorem foldl_updBook_contents (gen : String → String) (L : List (String × String))
    (acc : Book) (hnd : (L.map Prod.fst).Nodup)
    (hdisj : ∀ q ∈ L, q.1 ∉ acc.contents.map Prod.fst) :
    (L.foldl (updBook gen) acc).contents
      = acc.contents ++ L.map (fun p => (p.1, gen (leafPrompt p.1 p.2))) := by
  induction L generalizing acc with
  | nil => simp
  | cons hd tl ih =>
    obtain ⟨t, c⟩ := hd
    have hnot : ∀ p ∈ acc.contents, p.1 ≠ t := by
      intro p hp hpt
      exact hdisj (t, c) (List.mem_cons_self _ _)
        (List.mem_map.mpr ⟨p, hp, hpt⟩)
    have hstep : (updBook gen acc (t, c)).contents
        = acc.contents ++ [(t, gen (leafPrompt t c))] := by
      simp [updBook, Book.update_content, updateAssoc_append_of_not_mem _ _ _ hnot]
    rw [List.map_cons, List.nodup_cons] at hnd
    have hdisj2 : ∀ q ∈ tl, q.1 ∉ (updBook gen acc (t, c)).contents.map Prod.fst := by
      intro q hq
      rw [hstep]
      simp only [List.map_append, List.mem_append, List.map_cons, List.map_nil,
        List.mem_singleton, not_or]
      refine ⟨hdisj q (List.mem_cons_of_mem _ hq), ?_⟩
      intro hqt
      exact hnd.1 (List.mem_map.mpr ⟨q, hq, hqt⟩)
    rw [List.foldl_cons, ih _ hnd.2 hdisj2, hstep, List.map_cons, List.append_assoc]
    rfl

theorem foldl_updBook_lookup_of_not_mem (gen : String → String)
    (L : List (String × String)) (acc : Book) (t : String)
    (h : ∀ q ∈ L, q.1 ≠ t) :
    lookupAssoc ((L.foldl (updBook gen) acc).contents) t
      = lookupAssoc acc.contents t := by
  induction L generalizing acc with
  | nil => rfl
  | cons hd tl ih =>
    obtain ⟨t0, c0⟩ := hd
    rw [List.foldl_cons, ih _ (fun q hq => h q (List.mem_cons_of_mem _ hq))]
    exact lookupAssoc_updateAssoc_other _ _ _ _
      (Ne.symm (h (t0, c0) (List.mem_cons_self _ _)))

/-!  Helper lemmas about the exporters. -/

theorem concatAll_append (l1 l2 : List String) :
    concatAll (l1 ++ l2) = concatAll l1 ++ concatAll l2 := by
  induction l1 with
  | nil => simp [concatAll]
  | cons hd tl ih => simp [concatAll, ih, String.append_assoc]

theorem docxHeadings_cons (blk : DocxBlock) (l : List DocxBlock) :
    docxHeadings (blk :: l)
      = (match blk with
         | DocxBlock.heading lvl t => (lvl, t) :: docxHeadings l
         | DocxBlock.paragraph _ => docxHeadings l) := rfl

theorem docxHeadings_append (l1 l2 : List DocxBlock) :
    docxHeadings (l1 ++ l2) = docxHeadings l1 ++ docxHeadings l2 := by
  induction l1 with
  | nil => rfl
  | cons hd tl ih => cases hd <;> simp [docxHeadings_cons, ih]

theorem docxHeadings_create (b : Book) :
    docxHeadings (create_docx_file b)
      = (1, b.book_title) :: b.contents.map (fun p => (2, p.1)) := by
  have key : ∀ l : List (String × String),
      docxHeadings ((l.map (fun p =>
        [DocxBlock.heading 2 p.1, DocxBlock.paragraph p.2])).flatten)
        = l.map (fun p => (2, p.1)) := by
    intro l
    induction l with
    | nil => rfl
    | cons hd tl ih =>
      simp only [List.map_cons, List.flatten_cons, docxHeadings_append, ih]
      rfl
  rw [create_docx_file, docxHeadings_cons, key]

/-- Claim C1, counterexample: the outline dupOutline is valid and has two
leaf nodes, but after a successful run of the recursive content fill
with a generator returning non-empty text the content mapping of the
Book holds a single entry, because the two leaves share the title A and
the later write overwrites the earlier one; moreover, when the model
returns empty text for a section, the populated entry is empty, so
non-emptiness also needs an assumption on the generator. -/
theorem content_fill_count_counterexample :
    ((leavesSections dupOutline).length = 2
      ∧ ¬ (generate_book_content genX (Book.mk "T" []) dupOutline).contents.length
          = (leavesSections dupOutline).length)
    ∧ ∃ q ∈ (generate_book_content (fun _ => "") (Book.mk "T" [])
          distinctOutline).contents, q.2 = "" := by
  decide

/-- Claim C1, amended: for every valid outline whose N leaf titles are
pairwise distinct, after a successful run of the recursive content fill
with a generator that returns non-empty text, the content mapping of the
Book has exactly N populated entries, each with non-empty generated
content. -/
theorem content_fill_count_amended (gen : String → String) (bt : String)
    (sections : List (String × JVal))
    (hnodup : ((leavesSections sections).map Prod.fst).Nodup)
    (hgen : ∀ p, gen p ≠ "") :
    (generate_book_content gen (Book.mk bt []) sections).contents.length
        = (leavesSections sections).length
    ∧ ∀ q ∈ (generate_book_content gen (Book.mk bt []) sections).contents,
        q.2 ≠ "" := by
  have hc : (generate_book_content gen (Book.mk bt []) sections).contents
      = (leavesSections sections).map (fun p => (p.1, gen (leafPrompt p.1 p.2))) := by
    rw [generate_book_content_eq]
    simpa using foldl_updBook_contents gen (leavesSections sections)
      (Book.mk bt []) hnodup (by simp)
  constructor
  · rw [hc, List.length_map]
  · intro q hq
    rw [hc] at hq
    obtain ⟨p, _, hp⟩ := List.mem_map.mp hq
    rw [← hp]
    exact hgen _

/-- Claim C1, witness for the amended theorem at a concrete nested
outline with distinct leaf titles and a non-empty generator. -/
theorem content_fill_count_amended_witness :
    (generate_book_content genX (Book.mk "T" []) distinctOutline).contents.length
        = (leavesSections distinctOutline).length
    ∧ ∀ q ∈ (generate_book_content genX (Book.mk "T" []) distinctOutline).contents,
        q.2 ≠ "" :=
  content_fill_count_amended genX "T" distinctOutline (by decide)
    (fun _ => show ("X" : String) ≠ "" by decide)

/-- Claim C2: flattening a Book to Markdown yields the book title as a
heading first; the section at any position i of the content mapping
contributes its title as a sub-heading immediately followed by its
content, preceded by exactly the blocks of the sections before i and
followed by the blocks of the sections after i, so the section headings
appear in insertion order. -/
theorem markdown_flatten_order (b : Book) (i : Nat) (t c : String)
    (h : b.contents.get? i = some (t, c)) :
    Book.get_markdown_content b
      = "# " ++ b.book_title ++ "\n\n"
          ++ concatAll ((b.contents.take i).map sectionMarkdown)
          ++ ("## " ++ t ++ "\n\n" ++ c ++ "\n\n")
          ++ concatAll ((b.contents.drop (i + 1)).map sectionMarkdown) := by
  have hsplit : b.contents = b.contents.take i ++ (t, c) :: b.contents.drop (i + 1) := by
    rw [List.get?_eq_getElem?] at h
    obtain ⟨hl, he⟩ := List.getElem?_eq_some.mp h
    conv_lhs => rw [← List.take_append_drop i b.contents,
      List.drop_eq_getElem_cons hl, he]
  conv_lhs => rw [Book.get_markdown_content, hsplit]
  simp [List.map_cons, List.map_append, concatAll_append, concatAll,
    sectionMarkdown, String.append_assoc]

/-- Claim C2, witness at a concrete two-section Book, at position 1. -/
theorem markdown_flatten_order_witness :
    Book.get_markdown_content (Book.mk "T" [("A", "x"), ("B", "y")])
      = "# " ++ (Book.mk "T" [("A", "x"), ("B", "y")]).book_title ++ "\n\n"
          ++ concatAll (((Book.mk "T" [("A", "x"), ("B", "y")]).contents.take 1).map
              sectionMarkdown)
          ++ ("## " ++ "B" ++ "\n\n" ++ "y" ++ "\n\n")
          ++ concatAll (((Book.mk "T" [("A", "x"), ("B", "y")]).contents.drop 2).map
              sectionMarkdown) :=
  markdown_flatten_order (Book.mk "T" [("A", "x"), ("B", "y")]) 1 "B" "y" (by decide)

/-- Claim C3: when the structure response does not parse as valid JSON,
the workflow result is that parse error; no Book is built and nothing is
exposed to the export actions, which only ever see the success value. -/
theorem parse_failure_aborts (bt resp e : String)
    (parse : String → Except String JVal) (gen : String → Except String String)
    (h : parse resp = Except.error e) :
    advanced_book_generation (Except.ok bt) (Except.ok resp) parse gen
      = Except.error e := by
  simp [advanced_book_generation, h]

/-- Claim C3, witness with a parser that rejects the concrete response. -/
theorem parse_failure_aborts_witness :
    advanced_book_generation (Except.ok "T") (Except.ok "not json")
      (fun _ => Except.error "invalid JSON") (fun p => Except.ok p)
      = Except.error "invalid JSON" :=
  parse_failure_aborts "T" "not json" "invalid JSON"
    (fun _ => Except.error "invalid JSON") (fun p => Except.ok p) rfl

/-- Claim C4: saving a manual edit of section T replaces only the content
stored under T: the book title is unchanged, the key sequence of the
content mapping is unchanged (no section added, removed or reordered),
T now holds the edited content, and every other key looks up
unchanged. -/
theorem edit_frame_effect (b : Book) (T v : String)
    (h : T ∈ b.contents.map Prod.fst) :
    (b.update_content T v).book_title = b.book_title
    ∧ (b.update_content T v).contents.map Prod.fst = b.contents.map Prod.fst
    ∧ lookupAssoc (b.update_content T v).contents T = some v
    ∧ ∀ k, k ≠ T → lookupAssoc (b.update_content T v).contents k
        = lookupAssoc b.contents k :=
  ⟨rfl, updateAssoc_keys _ _ _ h, lookupAssoc_updateAssoc_self _ _ _,
    fun _ hk => lookupAssoc_updateAssoc_other _ _ _ _ hk⟩

/-- Claim C4, witness at a concrete two-section Book, editing section A. -/
theorem edit_frame_effect_witness :
    ((Book.mk "T" [("A", "x"), ("B", "y")]).update_content "A" "z").book_title
        = (Book.mk "T" [("A", "x"), ("B", "y")]).book_title
    ∧ ((Book.mk "T" [("A", "x"), ("B", "y")]).update_content "A" "z").contents.map
          Prod.fst
        = (Book.mk "T" [("A", "x"), ("B", "y")]).contents.map Prod.fst
    ∧ lookupAssoc
          ((Book.mk "T" [("A", "x"), ("B", "y")]).update_content "A" "z").contents "A"
        = some "z"
    ∧ ∀ k, k ≠ "A" → lookupAssoc
          ((Book.mk "T" [("A", "x"), ("B", "y")]).update_content "A" "z").contents k
        = lookupAssoc (Book.mk "T" [("A", "x"), ("B", "y")]).contents k :=
  edit_frame_effect (Book.mk "T" [("A", "x"), ("B", "y")]) "A" "z" (by decide)

/-- Claim C5: the e-book package built from a Book holds exactly one
chapter document per entry of its content mapping (its section titles),
with the chapter titles equal to the section titles in order; the table
of contents references exactly those chapters; the NCX and Nav
navigation items are present; and the stylesheet is the single fixed
style item. -/
theorem epub_structure (b : Book) :
    (create_epub_file b).chapters.map EpubHtml.title = b.contents.map Prod.fst
    ∧ (create_epub_file b).chapters.length = b.contents.length
    ∧ (create_epub_file b).toc = (create_epub_file b).chapters
    ∧ (create_epub_file b).hasNcx = true
    ∧ (create_epub_file b).hasNav = true
    ∧ (create_epub_file b).styles = [("style/nav.css", epubStyle)] := by
  simp [create_epub_file]

/-- Claim C6: a failed title call or a failed structure call makes the
whole workflow return that error, with no retry; and the recursive fill
is summarised exactly by the scan of its leaves: the Book it returns
holds precisely the writes of the calls completed before the first
failing one (no rollback, no checkpointing), the calls made are one per
leaf up to and including the failing one (no retry, nothing after the
failure), and the error of the failing call is the one propagated. -/
theorem api_error_no_retry_no_rollback
    (gs : Except String String) (parse : String → Except String JVal)
    (gen : String → Except String String) (bt e : String)
    (book : Book) (sections : List (String × JVal)) :
    advanced_book_generation (Except.error e) gs parse gen = Except.error e
    ∧ advanced_book_generation (Except.ok bt) (Except.error e) parse gen
        = Except.error e
    ∧ (fillSectionsE gen book sections).book
        = applyGen gen book (okLeaves gen (leavesSections sections)).1
    ∧ (fillSectionsE gen book sections).calls
        = callsOf (okLeaves gen (leavesSections sections))
    ∧ (fillSectionsE gen book sections).err
        = errOf (okLeaves gen (leavesSections sections)) := by
  refine ⟨rfl, rfl, ?_, ?_, ?_⟩ <;> rw [fillSectionsE_eq] <;> rfl

/-- Claim C7: every exporter is deterministic in structural output: two
Books with the same title and the same content mapping give equal
Markdown, PDF, DOCX and e-book outputs, and the heading structure of
those outputs is fixed by the title and the section order alone (the
document headings of the DOCX output are the title at level 1 followed
by the section titles at level 2 in insertion order, and the e-book
chapter titles are the section titles in insertion order). -/
theorem exporters_structurally_deterministic (b1 b2 : Book)
    (ht : b1.book_title = b2.book_title) (hc : b1.contents = b2.contents) :
    create_markdown_file (Book.get_markdown_content b1)
        = create_markdown_file (Book.get_markdown_content b2)
    ∧ create_pdf_file (Book.get_markdown_content b1)
        = create_pdf_file (Book.get_markdown_content b2)
    ∧ create_docx_file b1 = create_docx_file b2
    ∧ create_epub_file b1 = create_epub_file b2
    ∧ docxHeadings (create_docx_file b1)
        = (1, b1.book_title) :: b1.contents.map (fun p => (2, p.1))
    ∧ (create_epub_file b1).chapters.map EpubHtml.title
        = b1.contents.map Prod.fst := by
  obtain ⟨t1, c1⟩ := b1
  obtain ⟨t2, c2⟩ := b2
  simp only [Book.mk.injEq] at ht hc ⊢
  subst ht
  subst hc
  refine ⟨rfl, rfl, rfl, rfl, docxHeadings_create _, ?_⟩
  simp [create_epub_file]

/-- Claim C7, witness at two identical concrete Books. -/
theorem exporters_structurally_deterministic_witness :
    create_markdown_file (Book.get_markdown_content (Book.mk "T" [("A", "x")]))
        = create_markdown_file (Book.get_markdown_content (Book.mk "T" [("A", "x")]))
    ∧ create_pdf_file (Book.get_markdown_content (Book.mk "T" [("A", "x")]))
        = create_pdf_file (Book.get_markdown_content (Book.mk "T" [("A", "x")]))
    ∧ create_docx_file (Book.mk "T" [("A", "x")])
        = create_docx_file (Book.mk "T" [("A", "x")])
    ∧ create_epub_file (Book.mk "T" [("A", "x")])
        = create_epub_file (Book.mk "T" [("A", "x")])
    ∧ docxHeadings (create_docx_file (Book.mk "T" [("A", "x")]))
        = (1, (Book.mk "T" [("A", "x")]).book_title)
            :: (Book.mk "T" [("A", "x")]).contents.map (fun p => (2, p.1))
    ∧ (create_epub_file (Book.mk "T" [("A", "x")])).chapters.map EpubHtml.title
        = (Book.mk "T" [("A", "x")]).contents.map Prod.fst :=
  exporters_structurally_deterministic (Book.mk "T" [("A", "x")])
    (Book.mk "T" [("A", "x")]) rfl rfl

/-- Claim C8: when the models.list call raises, get_available_groq_models
returns the fixed fallback list and propagates nothing; otherwise it
returns the ids of the models the API reports.  The embedding is a total
function, so it never raises. -/
theorem groq_models_fallback (e : String) (ms : List GroqModel) :
    get_available_groq_models (Except.error e)
        = ["llama3-8b-8192", "llama3-70b-8192", "gemma-7b-it"]
    ∧ get_available_groq_models (Except.ok ms) = ms.map GroqModel.id :=
  ⟨rfl, rfl⟩

/-- Claim C9: an outline entry whose value is neither a string nor a
mapping is silently skipped by the fill: the Book is unchanged, no
generate_section call is made, and no error is raised for it. -/
theorem fill_skips_non_string_non_mapping (gen : String → Except String String)
    (book : Book) (title : String) (v : JVal)
    (h1 : v.isString = false) (h2 : v.isMapping = false) :
    fillEntryE gen book title v = FillResult.mk book [] none := by
  cases v with
  | str c => simp [JVal.isString] at h1
  | obj fields => simp [JVal.isMapping] at h2
  | null => rfl
  | num n => rfl
  | arr elems => rfl

/-- Claim C9, witness at a null-valued outline entry. -/
theorem fill_skips_non_string_non_mapping_witness :
    fillEntryE (fun p => Except.ok p) (Book.mk "T" []) "S" JVal.null
      = FillResult.mk (Book.mk "T" []) [] none :=
  fill_skips_non_string_non_mapping (fun p => Except.ok p) (Book.mk "T" [])
    "S" JVal.null rfl rfl

/-- Claim C10: the fill stores generated prose keyed by the bare leaf
title: whenever the depth-first leaf sequence of an outline ends its
occurrences of a title t with the leaf (t, c), the content mapping after
a successful run holds, under the single key t, exactly the text
generated for that last leaf, so a later leaf with the same title at any
other nesting level overwrites the earlier write. -/
theorem duplicate_leaf_title_last_write_wins (gen : String → String)
    (bt t c : String) (sections : List (String × JVal))
    (L1 L2 : List (String × String))
    (h : leavesSections sections = L1 ++ (t, c) :: L2)
    (hlast : ∀ q ∈ L2, q.1 ≠ t) :
    lookupAssoc (generate_book_content gen (Book.mk bt []) sections).contents t
      = some (gen (leafPrompt t c)) := by
  rw [generate_book_content_eq, h, List.foldl_append, List.foldl_cons,
    foldl_updBook_lookup_of_not_mem _ _ _ _ hlast]
  exact lookupAssoc_updateAssoc_self _ _ _

/-- Claim C10, witness at the concrete outline dupOutline, whose two
leaves share the title A at different nesting levels: the stored content
is the one generated for the later, nested leaf. -/
theorem duplicate_leaf_title_last_write_wins_witness :
    lookupAssoc (generate_book_content genX (Book.mk "T" []) dupOutline).contents "A"
      = some (genX (leafPrompt "A" "b")) :=
  duplicate_leaf_title_last_write_wins genX "T" "A" "b" dupOutline
    [("A", "a")] [] (by decide) (by simp)

end InfiniteBookshelf
